import Mathlib

/-!
Verification of the HttpRetryService retry engine.

This file gives a shallow embedding, in Lean, of the retry/backoff engine of
the repository (the Angular service `HttpRetryService` together with the
component `RetryServiceComponent` that drives it), and proves properties of
that embedding.

Modelling conventions:

* A transport outcome is either a success (the `next` callback of the
  response observer receives an `HttpResponse`) or a failure (the `error`
  callback receives an `HttpErrorResponse`).  Both carry an HTTP status code
  and an optional JSON body; absent body fields are `none` (JS `undefined`).
* The reactive run of one `get` operation is modelled by a deterministic
  timed interpreter `runFrom`: time is a natural number of milliseconds,
  the per-attempt transport outcome and round-trip duration are inputs, and
  the external cancel signal is an optional firing time.  Emission of an
  event through the shared `Subscriber` is guarded by the observer still
  being open, exactly as in the source, where `cancelSignal.subscribe`
  completes the observer and every `takeUntil(cancelSignal)` stops the
  pending work.  When the cancel signal and another callback are due at the
  same millisecond the cancel wins, matching the synchronous completion of
  the observer performed by the cancel subscription, which is registered
  before the data fetch is subscribed.
* JS numbers appearing in option records are modelled by rationals, so that
  the `Number.isInteger` checks of `validateOptions` are meaningful; the
  validated integer quantities that drive the timed run are naturals.
* The countdown tick stream `timer(0, updateInterval)` is modelled for a
  positive `updateInterval`; the bound `List.range delay` is a sufficient
  horizon because every emitted tick index `k` satisfies
  `k * updateInterval < delay`.
-/

/-- JSON-like primitive values that may appear in a response body field. -/
inductive JsonVal
  | jnull
  | jbool (b : Bool)
  | jnum (n : Int)
  | jstr (s : String)
  deriving DecidableEq, Repr

/-- Shape of a parsed response body as read by the service through the
`ApiResponse` interface: the `ready` and `data` fields, each possibly absent
(JS `undefined` is `none`). -/
structure Body where
  ready : Option JsonVal := none
  data : Option JsonVal := none
  deriving DecidableEq, Repr

/-- A raw transport outcome: a success delivered to the `next` callback of
`checkResponseObserver` (an `HttpResponse`), or a failure delivered to its
`error` callback (an `HttpErrorResponse`).  The body is `none` when the
response carried no parsable JSON body. -/
inductive Outcome
  | success (status : Nat) (body : Option Body)
  | failure (status : Nat) (body : Option Body)
  deriving DecidableEq, Repr

/-- Error codes of the service (TS enum `ErrorCodes`). -/
inductive ErrorCodes
  | UNEXPECTED_RESPONSE_FORMAT
  | DATA_NOT_READY_YET
  | UNKNOWN_ERROR
  deriving DecidableEq, Repr

/-- Error message table (TS map `ErrorMessages`). -/
def ErrorMessages : ErrorCodes → String
  | .UNEXPECTED_RESPONSE_FORMAT => "Unexpected response format."
  | .DATA_NOT_READY_YET => "Data not ready yet."
  | .UNKNOWN_ERROR => "Server error."

/-- Translation of `HttpRetryService.checkForValidResponse`: status 200,
body field `ready` strictly equal to `true`, and body field `data` defined.
A missing body makes the optional chaining yield `undefined`, failing both
strict comparisons. -/
def checkForValidResponse (status : Nat) (body : Option Body) : Bool :=
  status == 200 &&
    (match body with
      | some b => b.ready == some (JsonVal.jbool true) && b.data != none
      | none => false)

/-- Translation of `HttpRetryService.checkResponseForRetry`: status 404 and
body field `ready` strictly equal to `false`. -/
def checkResponseForRetry (status : Nat) (body : Option Body) : Bool :=
  status == 404 &&
    (match body with
      | some b => b.ready == some (JsonVal.jbool false)
      | none => false)

/-- The four response classes of the specification. -/
inductive Classification
  | Ready
  | NotReadyRetryable
  | FormatInvalid
  | ServerFailure
  deriving DecidableEq, Repr

/-- The classifier realized by `checkResponseObserver`: the `next` callback
applies `checkForValidResponse` and otherwise treats the success as a format
failure; the `error` callback applies `checkResponseForRetry` and otherwise
treats the failure as a server failure. -/
def classify : Outcome → Classification
  | .success st b => if checkForValidResponse st b then .Ready else .FormatInvalid
  | .failure st b => if checkResponseForRetry st b then .NotReadyRetryable else .ServerFailure

/-- Classifier transcribed literally from claim C1: Ready and
NotReadyRetryable as in the code, then FormatInvalid for any other
status-200 success, and ServerFailure for every remaining outcome
(so in particular for every success whose status is not 200). -/
def claimClassification : Outcome → Classification
  | .success 200 (some b) =>
      if b.ready = some (JsonVal.jbool true) ∧ b.data ≠ none then .Ready
      else .FormatInvalid
  | .success 200 none => .FormatInvalid
  | .failure 404 (some b) =>
      if b.ready = some (JsonVal.jbool false) then .NotReadyRetryable
      else .ServerFailure
  | _ => .ServerFailure

/-- Classifier transcribed from the amended reading of claim C1: a success
with status 200, `ready` strictly `true` and `data` defined is Ready; every
other success, regardless of status, is FormatInvalid; a failure with status
404 and `ready` strictly `false` is NotReadyRetryable; every remaining
failure is ServerFailure. -/
def amendedClassification : Outcome → Classification
  | .success st (some b) =>
      if st = 200 ∧ b.ready = some (JsonVal.jbool true) ∧ b.data ≠ none then .Ready
      else .FormatInvalid
  | .success _ none => .FormatInvalid
  | .failure st (some b) =>
      if st = 404 ∧ b.ready = some (JsonVal.jbool false) then .NotReadyRetryable
      else .ServerFailure
  | .failure _ none => .ServerFailure

/-- C1 (counterexample).  The claim as stated sends every outcome outside
its first three groups to ServerFailure, including any success whose status
is not 200.  The code routes every success through the `next` callback,
whose non-Ready branch yields the format-invalid classification, so a
status-204 success is classified FormatInvalid, not ServerFailure. -/
theorem c1_counterexample :
    classify (Outcome.success 204 none) = Classification.FormatInvalid ∧
    claimClassification (Outcome.success 204 none) = Classification.ServerFailure ∧
    classify (Outcome.success 204 none) ≠ claimClassification (Outcome.success 204 none) := by
  decide

/-- C1 (amended).  Classification is total and exact: `classify` is a
function on transport outcomes, so every outcome falls in exactly one of the
four classes, and the classes are characterized as follows: a success with
status 200 whose body has `ready` strictly `true` and `data` defined is
Ready; every other success is FormatInvalid; a failure with status 404 whose
body has `ready` strictly `false` is NotReadyRetryable; every remaining
failure, including a 404 whose `ready` is not exactly `false`, is
ServerFailure. -/
theorem c1_classification_total_exact (o : Outcome) :
    classify o = amendedClassification o := by
  cases o with
  | success st b =>
    cases b with
    | none => simp [classify, amendedClassification, checkForValidResponse]
    | some bb =>
      simp only [classify, amendedClassification, checkForValidResponse]
      by_cases h1 : st = 200 <;> by_cases h2 : bb.ready = some (JsonVal.jbool true) <;>
        by_cases h3 : bb.data = none <;>
        simp [h1, h2, h3]
  | failure st b =>
    cases b with
    | none => simp [classify, amendedClassification, checkResponseForRetry]
    | some bb =>
      simp only [classify, amendedClassification, checkResponseForRetry]
      by_cases h1 : st = 404 <;> by_cases h2 : bb.ready = some (JsonVal.jbool false) <;>
        simp [h1, h2]

/-- Caller-facing option record (TS interface `RetryOptions`): every field
optional; numeric fields are JS numbers, modelled as rationals so that the
`Number.isInteger` checks of validation are meaningful. -/
structure RetryOptions where
  retries : Option ℚ := none
  interval : Option ℚ := none
  updateInterval : Option ℚ := none
  strategy : Option String := none
  retryOnServerFailure : Option Bool := none
  retryOnUnexpectedFormat : Option Bool := none
  liveUpdates : Option Bool := none
  noUpdates : Option Bool := none
  deriving DecidableEq, Repr

/-- Default options of the service (field `defaultOptions`, a
`Required<RetryOptions>`: every field present). -/
def defaultOptions : RetryOptions :=
  { retries := some 3
    interval := some 3000
    strategy := some "linear"
    updateInterval := some 1000
    retryOnServerFailure := some false
    retryOnUnexpectedFormat := some false
    liveUpdates := some true
    noUpdates := some false }

/-- JS object spread `{...defaults, ...options}`: a fresh object whose
fields come from `options` when present there and from `defaults`
otherwise. -/
def mergeOptions (defaults options : RetryOptions) : RetryOptions :=
  { retries := options.retries <|> defaults.retries
    interval := options.interval <|> defaults.interval
    updateInterval := options.updateInterval <|> defaults.updateInterval
    strategy := options.strategy <|> defaults.strategy
    retryOnServerFailure := options.retryOnServerFailure <|> defaults.retryOnServerFailure
    retryOnUnexpectedFormat := options.retryOnUnexpectedFormat <|> defaults.retryOnUnexpectedFormat
    liveUpdates := options.liveUpdates <|> defaults.liveUpdates
    noUpdates := options.noUpdates <|> defaults.noUpdates }

/-- One numeric bound check of `validateOptions`: the value is rejected when
it is not an integer, is negative, or exceeds the given maximum. -/
def badNumber (x maxV : ℚ) : Bool :=
  !(x.den == 1) || decide (x < 0) || decide (maxV < x)

/-- JS boolean coercion `!!x` applied to an optional field value:
`undefined` is falsy, a present boolean keeps its value. -/
def truthy : Option Bool → Bool
  | none => false
  | some b => b

/-- The four `!!` coercions at the end of `validateOptions`, which mutate
the record they are given (the merged copy): the four flag fields are
overwritten with their coerced values. -/
def coerceBooleanOptions (o : RetryOptions) : RetryOptions :=
  { o with
    retryOnUnexpectedFormat := some (truthy o.retryOnUnexpectedFormat)
    retryOnServerFailure := some (truthy o.retryOnServerFailure)
    noUpdates := some (truthy o.noUpdates)
    liveUpdates := some (truthy o.liveUpdates) }

/-- Translation of `HttpRetryService.validateOptions` on the record it
receives: the four checks run in order and throw on the first violation
(model: `Except.error` with the thrown message); the strategy check is
guarded by JS truthiness, so an absent or empty strategy is not checked.
When no check throws, the boolean coercions are applied to the record and
the mutated record is the result. -/
def validateOptionsE (o : RetryOptions) : Except String RetryOptions :=
  if o.retries.any (fun r => badNumber r 10) then
    .error "Invalid value for retries. It must be a non-negative integer less than 10."
  else if o.interval.any (fun r => badNumber r 60000) then
    .error "Invalid value for interval. It must be a non-negative integer less than 60000."
  else if o.updateInterval.any (fun r => badNumber r 10000) then
    .error "Invalid value for updateInterval. It must be a non-negative integer less than 10000."
  else if o.strategy.any (fun s => s != "" && !(s == "linear" || s == "exponential")) then
    .error "Invalid strategy. Valid values are \x22linear\x22 or \x22exponential\x22."
  else
    .ok (coerceBooleanOptions o)

/-- Synchronous part of `HttpRetryService.get`: merge the caller options
over the defaults, then validate.  A validation failure throws before the
observable is returned, so no network request is ever issued for it; on
success the merged, coerced configuration drives the request. -/
def serviceGet (options : RetryOptions) : Except String RetryOptions :=
  validateOptionsE (mergeOptions defaultOptions options)

/-- Observable result check for the model of `get`: did the call throw. -/
def isThrow : Except String RetryOptions → Bool
  | .error _ => true
  | .ok _ => false

/-- Out-of-bounds predicate of the amended claim C6 on the caller options:
some provided numeric field violates its bound, or the provided strategy is
a nonempty string other than linear and exponential. -/
def optionsOutOfBounds (o : RetryOptions) : Bool :=
  o.retries.any (fun r => badNumber r 10) ||
  o.interval.any (fun r => badNumber r 60000) ||
  o.updateInterval.any (fun r => badNumber r 10000) ||
  o.strategy.any (fun s => s != "" && !(s == "linear" || s == "exponential"))

/-- Within-bounds predicate of claim C6 on the caller options: every
provided numeric field is an integer within its bound and any provided
strategy is one of the two valid names. -/
def optionsWithinBounds (o : RetryOptions) : Bool :=
  o.retries.all (fun r => !badNumber r 10) &&
  o.interval.all (fun r => !badNumber r 60000) &&
  o.updateInterval.all (fun r => !badNumber r 10000) &&
  o.strategy.all (fun s => s == "linear" || s == "exponential")

/-- C6 (counterexample).  The claim states that any options value whose
strategy is neither linear nor exponential makes `get` throw.  The strategy
check of `validateOptions` is guarded by JS truthiness, so the empty string,
which is neither of the two valid names, passes validation and `get` does
not throw. -/
theorem c6_counterexample :
    isThrow (serviceGet { strategy := some "" }) = false ∧
    ("" == "linear") = false ∧ ("" == "exponential") = false := by
  decide

/-- C6 (amended).  Merging and validation: `get` throws synchronously,
before any network request is issued, exactly when some provided option is
out of bounds, where an out-of-bounds strategy is a nonempty string other
than linear and exponential (the empty string escapes the truthiness-guarded
check); in particular every options value whose provided fields are all
within bounds does not throw.  Absent fields are filled from the in-bounds
defaults before validation, so they never cause a throw. -/
theorem c6_validation_bounds (user : RetryOptions) :
    isThrow (serviceGet user) = optionsOutOfBounds user ∧
    (optionsWithinBounds user = true → isThrow (serviceGet user) = false) := by
  have hval : ∀ o : RetryOptions, isThrow (validateOptionsE o) =
      (o.retries.any (fun r => badNumber r 10) ||
       o.interval.any (fun r => badNumber r 60000) ||
       o.updateInterval.any (fun r => badNumber r 10000) ||
       o.strategy.any (fun s => s != "" && !(s == "linear" || s == "exponential"))) := by
    intro o
    unfold validateOptionsE
    split_ifs with h1 h2 h3 h4 <;> simp_all [isThrow]
  have horElse : ∀ (x : Option ℚ) (d : ℚ) (f : ℚ → Bool), f d = false →
      (x <|> some d).any f = x.any f := by
    intro x d f h
    cases x <;> simp [Option.any, h]
  have horElseS : ∀ (x : Option String) (d : String) (f : String → Bool), f d = false →
      (x <|> some d).any f = x.any f := by
    intro x d f h
    cases x <;> simp [Option.any, h]
  have hmain : isThrow (serviceGet user) = optionsOutOfBounds user := by
    simp only [serviceGet, hval, mergeOptions, defaultOptions, optionsOutOfBounds]
    rw [horElse _ _ _ (by decide), horElse _ _ _ (by decide), horElse _ _ _ (by decide),
      horElseS _ _ _ (by decide)]
  refine ⟨hmain, fun h => hmain.trans ?_⟩
  rcases user with ⟨r, i, u, s, a, b, c, d⟩
  cases r <;> cases i <;> cases u <;> cases s <;>
    simp_all [optionsWithinBounds, optionsOutOfBounds, Option.any, Option.all] <;>
    tauto

/-- C6 (witness).  Scenario D of the specification: `retries: 11` is a
synchronous configuration failure, and the all-defaults call does not
throw. -/
theorem c6_validation_bounds_witness :
    isThrow (serviceGet { retries := some 11 }) = true ∧
    isThrow (serviceGet {}) = false := by
  refine ⟨(c6_validation_bounds { retries := some 11 }).1.trans (by decide), ?_⟩
  exact (c6_validation_bounds {}).2 (by decide)

/-- Object store modelling JS object identity for claim C9: each option
record lives at an index of the store, and mutation is `List.set` at that
index.  The spread in `get` allocates a fresh record at the end of the
store; `validateOptions` then mutates the record it was passed — the fresh
merged one — through the boolean coercions. -/
def serviceGetHeap (store : List RetryOptions) (defRef userRef : Nat) :
    List RetryOptions × Nat :=
  let defaults := store.getD defRef {}
  let user := store.getD userRef {}
  let merged := mergeOptions defaults user
  let store1 := store ++ [merged]
  let store2 := store1.set store.length (coerceBooleanOptions merged)
  (store2, store.length)

/-- Setting the freshly appended cell rewrites only that cell. -/
theorem set_append_singleton {α : Type} (l : List α) (x y : α) :
    (l ++ [x]).set l.length y = l ++ [y] := by
  induction l with
  | nil => rfl
  | cons a t ih => simp [List.set, ih]

/-- C9 (confirmed).  For every call, `get` leaves the caller options record
and the stored `defaultOptions` record unchanged: the whole pre-existing
store is returned intact, the merge allocates a fresh record at the end of
the store, and the boolean coercions of `validateOptions` mutate only that
fresh merged copy.  In particular reading any pre-existing reference,
including `defRef` and `userRef`, after the call yields exactly the record
it held before. -/
theorem c9_frame_no_mutation (store : List RetryOptions) (defRef userRef : Nat) :
    (serviceGetHeap store defRef userRef).1 =
      store ++ [coerceBooleanOptions
        (mergeOptions (store.getD defRef {}) (store.getD userRef {}))] ∧
    (serviceGetHeap store defRef userRef).2 = store.length := by
  refine ⟨?_, rfl⟩
  simp only [serviceGetHeap]
  exact set_append_singleton _ _ _

/-- Fully populated configuration driving one operation run (the
`Required<RetryOptions>` handed to `request` after merge and validation);
the numeric fields are the validated non-negative integers. -/
structure RequiredRetryOptions where
  retries : Nat
  interval : Nat
  updateInterval : Nat
  strategy : String
  retryOnServerFailure : Bool
  retryOnUnexpectedFormat : Bool
  liveUpdates : Bool
  noUpdates : Bool
  deriving DecidableEq, Repr

/-- Translation of `HttpRetryService.calculateDelayBeforeRetry`: the linear
strategy returns the interval, any other strategy value returns
`interval * 2 ^ attempts`. -/
def calculateDelayBeforeRetry (interval attempts : Nat) (strategy : String) : Nat :=
  if strategy == "linear" then interval else interval * 2 ^ attempts

/-- Payload of the `error` field of an emitted service response (TS
interface `ErrorDataResponse` as populated by the service); `totalDelay` is
the value in seconds computed by `sendMaxRetriesError`. -/
structure ErrorData where
  errorCode : ErrorCodes
  errorMessage : String
  message : Option String := none
  attempts : Option Nat := none
  maxRetries : Option Nat := none
  delay : Option Nat := none
  totalDelay : Option ℚ := none
  deriving DecidableEq, Repr

/-- One event emitted on the operation stream (a `ServiceResponse` value):
the loading notification of `fetchData`, a terminal data response
(`sendAndCompleteResponse` spreads the body and adds `loading: false`), or
an error-shaped response. -/
inductive Event
  | loading
  | result (body : Body)
  | errorEv (e : ErrorData)
  deriving DecidableEq, Repr

/-- Result of one modelled operation run: the emitted events with their
emission times, and the times at which HTTP requests were issued (one entry
per `fetchData` call). -/
structure RunResult where
  trace : List (Nat × Event)
  issues : List Nat
  deriving DecidableEq, Repr

/-- Whether the shared observer is still open at time `t`: the cancel
subscription completes it at the cancel time, and a completed rxjs
subscriber discards every later emission.  At the cancel instant itself the
cancel wins, because its subscription was registered first and a subject
notifies its subscribers synchronously. -/
def openAt (cancel : Option Nat) (t : Nat) : Bool :=
  match cancel with
  | none => true
  | some c => t < c

/-- Error payload of `sendErrorAndCompleteResponse(code, {}, observer)`:
just the error object from `createErrorObject`. -/
def simpleError (code : ErrorCodes) : ErrorData :=
  { errorCode := code, errorMessage := ErrorMessages code }

/-- Error payload of `sendAttemptsUpdate`: the single intermediate update
emitted when live updates are off, carrying the pre-increment attempt
counter. -/
def attemptUpdateError (code : ErrorCodes) (attempts : Nat)
    (opts : RequiredRetryOptions) : ErrorData :=
  { errorCode := code, errorMessage := ErrorMessages code
    message := some ("Attempt " ++ toString attempts ++ " of " ++ toString opts.retries)
    attempts := some attempts, maxRetries := some opts.retries }

/-- Error payload of `sendMaxRetriesError`: the terminal event after the
retry budget is exhausted.  `totalDelay` is the elapsed wall-clock time
since operation start divided by 1000; the displayed seconds count uses
rounding to the nearest integer (JS `toFixed(0)`). -/
def maxRetriesError (code : ErrorCodes) (startTime endTime : Nat)
    (opts : RequiredRetryOptions) (attempts : Nat) : ErrorData :=
  { errorCode := code, errorMessage := ErrorMessages code
    message := some ("Max retries reached. Retried " ++ toString opts.retries ++
      " times over " ++ toString ((endTime - startTime + 500) / 1000) ++ " seconds.")
    attempts := some attempts, maxRetries := some opts.retries
    totalDelay := some (((endTime - startTime : Nat) : ℚ) / 1000) }

/-- The countdown tick with index `k` of a wait of length `delayMs` that
started at time `t`: emitted at `t + k * updateInterval`, it carries the
remaining wait time (clamped at zero) and the message with the
remaining-seconds value rounded up (JS `Math.ceil`), together with the
pre-increment attempt counters, as built in the `map` of
`sendLiveUpdates`. -/
def countdownTick (delayMs attempts : Nat) (code : ErrorCodes)
    (opts : RequiredRetryOptions) (t k : Nat) : Nat × Event :=
  let remaining := delayMs - k * opts.updateInterval
  (t + k * opts.updateInterval,
    Event.errorEv
      { errorCode := code, errorMessage := ErrorMessages code
        message := some ("Retrying in " ++ toString ((remaining + 999) / 1000) ++
          " seconds... (Attempt " ++ toString attempts ++ " of " ++
          toString opts.retries ++ ")")
        attempts := some attempts, maxRetries := some opts.retries
        delay := some remaining })

/-- Translation of `sendLiveUpdates`: `timer(0, updateInterval)` ticks at
`t + k * updateInterval`; `takeUntil(timer(delay))` stops the stream the
instant the wait elapses (the notifier is subscribed before the source, so a
tick due exactly at the deadline is not emitted), keeping exactly the ticks
with `k * updateInterval < delayMs`; `takeUntil(cancelSignal)` and the
completed observer suppress every tick from the cancel instant on.  The
range bound is a sufficient horizon for any positive update interval. -/
def liveUpdateEvents (delayMs attempts : Nat) (code : ErrorCodes)
    (opts : RequiredRetryOptions) (cancel : Option Nat) (t : Nat) :
    List (Nat × Event) :=
  ((List.range delayMs).filter
      (fun k => k * opts.updateInterval < delayMs &&
        openAt cancel (t + k * opts.updateInterval))).map
    (countdownTick delayMs attempts code opts t)

/-- Decision taken by `checkResponseObserver` on one transport outcome:
either finish the stream with a terminal event, or call `scheduleRetry`
with the corresponding error code. -/
inductive Decision
  | terminalEvent (e : Event)
  | retry (code : ErrorCodes)
  deriving DecidableEq, Repr

/-- Translation of the `next` and `error` callbacks of
`checkResponseObserver`. -/
def decideOutcome (opts : RequiredRetryOptions) : Outcome → Decision
  | .success st b =>
      if checkForValidResponse st b then .terminalEvent (.result (b.getD {}))
      else if opts.retryOnUnexpectedFormat then .retry .UNEXPECTED_RESPONSE_FORMAT
      else .terminalEvent (.errorEv (simpleError .UNEXPECTED_RESPONSE_FORMAT))
  | .failure st b =>
      if checkResponseForRetry st b then .retry .DATA_NOT_READY_YET
      else if opts.retryOnServerFailure then .retry .UNKNOWN_ERROR
      else .terminalEvent (.errorEv (simpleError .UNKNOWN_ERROR))

/-- Timed interpreter of the retry loop of `HttpRetryService.request`.
One call models one attempt: `a` is the current value of the `attempts`
counter, `t` the time at which `fetchData` runs for this attempt, and the
fuel argument is a recursion bound (the loop performs at most
`retries + 1` attempts, since `scheduleRetry` terminates as soon as
`attempts >= retries` and increments `attempts` before every retry).

For the attempt issued at `t`: unless `noUpdates`, the loading event is
emitted if the observer is still open; the outcome `outcome a` of the
request arrives at `t + rt a` and is delivered only if the observer is
still open then (`takeUntil(cancelSignal)` on the request, completed
observer otherwise).  A retryable outcome with budget left computes the
backoff delay, emits the intermediate updates (countdown ticks or single
attempts update), increments the counter and re-enters the loop after the
delay; the pending `timer(delay)` is itself cancelled if the cancel signal
fires before it does. -/
def runFrom (opts : RequiredRetryOptions) (outcome : Nat → Outcome)
    (rt : Nat → Nat) (cancel : Option Nat) (startTime : Nat) :
    Nat → Nat → Nat → RunResult
  | _, _, 0 => ⟨[], []⟩
  | a, t, fuel + 1 =>
    let loadEv : List (Nat × Event) :=
      if opts.noUpdates then [] else if openAt cancel t then [(t, .loading)] else []
    let tResp := t + rt a
    if openAt cancel tResp then
      match decideOutcome opts (outcome a) with
      | .terminalEvent e => ⟨loadEv ++ [(tResp, e)], [t]⟩
      | .retry code =>
        if opts.retries ≤ a then
          ⟨loadEv ++ [(tResp, .errorEv (maxRetriesError code startTime tResp opts a))], [t]⟩
        else
          let d := calculateDelayBeforeRetry opts.interval a opts.strategy
          let updates : List (Nat × Event) :=
            if opts.noUpdates then []
            else if opts.liveUpdates then liveUpdateEvents d a code opts cancel tResp
            else [(tResp, .errorEv (attemptUpdateError code a opts))]
          let tNext := tResp + d
          if openAt cancel tNext then
            let rest := runFrom opts outcome rt cancel startTime (a + 1) tNext fuel
            ⟨loadEv ++ updates ++ rest.trace, t :: rest.issues⟩
          else
            ⟨loadEv ++ updates, [t]⟩
    else
      ⟨loadEv, [t]⟩

/-- One full operation run of `request`: the `attempts` counter starts at
zero, the start time is recorded, and the first fetch runs at subscription
time. -/
def runOperation (opts : RequiredRetryOptions) (outcome : Nat → Outcome)
    (rt : Nat → Nat) (cancel : Option Nat) (startTime : Nat) : RunResult :=
  runFrom opts outcome rt cancel startTime 0 startTime (opts.retries + 1)

/-- The not-ready reply of the backend wire contract: status 404 with body
containing exactly `ready: false`. -/
def notReadyOutcome : Outcome :=
  .failure 404 (some { ready := some (JsonVal.jbool false) })

/-- Recognizer of the terminal max-retries error event: only
`sendMaxRetriesError` populates the `totalDelay` field. -/
def isTerminalErr : Event → Bool
  | .errorEv e => e.totalDelay.isSome
  | _ => false

/-- Recognizer of the loading event. -/
def isLoading : Event → Bool
  | .loading => true
  | _ => false

/-- Every countdown tick of a wait guarded by a cancel time is emitted
strictly before the cancel time. -/
theorem liveUpdateEvents_lt_cancel {d a : Nat} {code : ErrorCodes}
    {opts : RequiredRetryOptions} {c t : Nat} {x : Nat × Event}
    (hx : x ∈ liveUpdateEvents d a code opts (some c) t) : x.1 < c := by
  simp only [liveUpdateEvents, List.mem_map, List.mem_filter] at hx
  obtain ⟨k, ⟨-, hk⟩, rfl⟩ := hx
  simp only [Bool.and_eq_true, openAt, decide_eq_true_eq] at hk
  simpa [countdownTick] using hk.2

/-- Every countdown tick of a wait starting at `t` with length `d` is
emitted no earlier than `t` and strictly before `t + d`. -/
theorem liveUpdateEvents_time_bounds {d a : Nat} {code : ErrorCodes}
    {opts : RequiredRetryOptions} {cancel : Option Nat} {t : Nat} {x : Nat × Event}
    (hx : x ∈ liveUpdateEvents d a code opts cancel t) :
    t ≤ x.1 ∧ x.1 < t + d := by
  simp only [liveUpdateEvents, List.mem_map, List.mem_filter] at hx
  obtain ⟨k, ⟨-, hk⟩, rfl⟩ := hx
  simp only [Bool.and_eq_true, decide_eq_true_eq] at hk
  have := hk.1
  simp only [countdownTick]
  omega

/-- Once the cancel signal has fired, no event is emitted: every event of a
run with cancel time `c` is emitted strictly before `c`. -/
theorem runFrom_lt_cancel (opts : RequiredRetryOptions) (outcome : Nat → Outcome)
    (rt : Nat → Nat) (c startTime : Nat) :
    ∀ fuel a t x, x ∈ (runFrom opts outcome rt (some c) startTime a t fuel).trace →
      x.1 < c := by
  intro fuel
  induction fuel with
  | zero => intro a t x hx; simp [runFrom] at hx
  | succ n ih =>
    intro a t x hx
    have hload : ∀ y : Nat × Event,
        y ∈ (if opts.noUpdates then ([] : List (Nat × Event))
          else if openAt (some c) t then [(t, Event.loading)] else []) → y.1 < c := by
      intro y hy
      by_cases hnu : opts.noUpdates <;> simp [hnu] at hy
      by_cases ho : openAt (some c) t <;> simp [ho] at hy
      subst hy
      simpa [openAt] using ho
    simp only [runFrom] at hx
    by_cases h1 : openAt (some c) (t + rt a)
    · rw [if_pos h1] at hx
      have h1lt : t + rt a < c := by simpa [openAt] using h1
      cases hd : decideOutcome opts (outcome a) with
      | terminalEvent e =>
        rw [hd] at hx
        rcases List.mem_append.mp hx with hy | hy
        · exact hload x hy
        · simp at hy
          subst hy
          exact h1lt
      | retry code =>
        rw [hd] at hx
        dsimp only at hx
        by_cases h2 : opts.retries ≤ a
        · rw [if_pos h2] at hx
          rcases List.mem_append.mp hx with hy | hy
          · exact hload x hy
          · simp at hy
            subst hy
            exact h1lt
        · rw [if_neg h2] at hx
          have hupd : ∀ y : Nat × Event,
              y ∈ (if opts.noUpdates then ([] : List (Nat × Event))
                else if opts.liveUpdates then
                  liveUpdateEvents (calculateDelayBeforeRetry opts.interval a opts.strategy)
                    a code opts (some c) (t + rt a)
                else [(t + rt a, Event.errorEv (attemptUpdateError code a opts))]) →
              y.1 < c := by
            intro y hy
            by_cases hnu : opts.noUpdates <;> simp only [hnu] at hy
            · simp at hy
            · by_cases hlu : opts.liveUpdates <;> simp only [hlu] at hy
              · simp only [if_false, if_true, Bool.false_eq_true, ite_false, ite_true] at hy
                exact liveUpdateEvents_lt_cancel hy
              · simp only [if_false, if_true, Bool.false_eq_true, ite_false, ite_true,
                  List.mem_singleton] at hy
                subst hy
                exact h1lt
          by_cases h3 : openAt (some c)
              (t + rt a + calculateDelayBeforeRetry opts.interval a opts.strategy)
          · rw [if_pos h3] at hx
            rcases List.mem_append.mp hx with hy | hy
            · rcases List.mem_append.mp hy with hz | hz
              · exact hload x hz
              · exact hupd x hz
            · exact ih _ _ x hy
          · rw [if_neg h3] at hx
            rcases List.mem_append.mp hx with hy | hy
            · exact hload x hy
            · exact hupd x hy
    · rw [if_neg h1] at hx
      exact hload x hx

/-- Every event of a run segment whose current attempt is issued at time
`t` is emitted no earlier than `t`. -/
theorem runFrom_time_lower_bound (opts : RequiredRetryOptions)
    (outcome : Nat → Outcome) (rt : Nat → Nat) (cancel : Option Nat)
    (startTime : Nat) :
    ∀ fuel a t x, x ∈ (runFrom opts outcome rt cancel startTime a t fuel).trace →
      t ≤ x.1 := by
  intro fuel
  induction fuel with
  | zero => intro a t x hx; simp [runFrom] at hx
  | succ n ih =>
    intro a t x hx
    have hload : ∀ y : Nat × Event,
        y ∈ (if opts.noUpdates then ([] : List (Nat × Event))
          else if openAt cancel t then [(t, Event.loading)] else []) → t ≤ y.1 := by
      intro y hy
      by_cases hnu : opts.noUpdates <;> simp [hnu] at hy
      by_cases ho : openAt cancel t <;> simp [ho] at hy
      subst hy
      exact le_refl t
    simp only [runFrom] at hx
    by_cases h1 : openAt cancel (t + rt a)
    · rw [if_pos h1] at hx
      cases hd : decideOutcome opts (outcome a) with
      | terminalEvent e =>
        rw [hd] at hx
        rcases List.mem_append.mp hx with hy | hy
        · exact hload x hy
        · simp at hy
          subst hy
          exact Nat.le_add_right t (rt a)
      | retry code =>
        rw [hd] at hx
        dsimp only at hx
        by_cases h2 : opts.retries ≤ a
        · rw [if_pos h2] at hx
          rcases List.mem_append.mp hx with hy | hy
          · exact hload x hy
          · simp at hy
            subst hy
            exact Nat.le_add_right t (rt a)
        · rw [if_neg h2] at hx
          have hupd : ∀ y : Nat × Event,
              y ∈ (if opts.noUpdates then ([] : List (Nat × Event))
                else if opts.liveUpdates then
                  liveUpdateEvents (calculateDelayBeforeRetry opts.interval a opts.strategy)
                    a code opts cancel (t + rt a)
                else [(t + rt a, Event.errorEv (attemptUpdateError code a opts))]) →
              t ≤ y.1 := by
            intro y hy
            by_cases hnu : opts.noUpdates <;> simp only [hnu] at hy
            · simp at hy
            · by_cases hlu : opts.liveUpdates <;> simp only [hlu] at hy
              · simp only [if_false, if_true, Bool.false_eq_true, ite_false, ite_true] at hy
                have := (liveUpdateEvents_time_bounds hy).1
                omega
              · simp only [if_false, if_true, Bool.false_eq_true, ite_false, ite_true,
                  List.mem_singleton] at hy
                subst hy
                exact Nat.le_add_right t (rt a)
          by_cases h3 : openAt cancel
              (t + rt a + calculateDelayBeforeRetry opts.interval a opts.strategy)
          · rw [if_pos h3] at hx
            rcases List.mem_append.mp hx with hy | hy
            · rcases List.mem_append.mp hy with hz | hz
              · exact hload x hz
              · exact hupd x hz
            · have := ih _ _ x hy
              omega
          · rw [if_neg h3] at hx
            rcases List.mem_append.mp hx with hy | hy
            · exact hload x hy
            · exact hupd x hy
    · rw [if_neg h1] at hx
      exact hload x hx

/-- C3 (confirmed).  For every operation and every point of its run, once
the external cancel signal fires (at time `c`), zero further events are
emitted on the stream: every event of the run is emitted strictly before
`c`, for every configuration, every sequence of transport outcomes and
round-trip times, and hence regardless of any in-flight request, pending
backoff timer or active countdown tick stream.  The stream reaches its
cancelled terminal state silently: the model emits no error and no data
event at or after the cancel instant, because the cancel subscription
completes the shared observer and every pending source is stopped by
`takeUntil(cancelSignal)`. -/
theorem c3_cancellation_silences_stream (opts : RequiredRetryOptions)
    (outcome : Nat → Outcome) (rt : Nat → Nat) (c startTime : Nat) :
    ((runOperation opts outcome rt (some c) startTime).trace.all
      (fun x => decide (x.1 < c))) = true := by
  rw [List.all_eq_true]
  intro x hx
  simp only [runOperation] at hx
  exact decide_eq_true (runFrom_lt_cancel opts outcome rt c startTime _ _ _ x hx)

/-- C8 (confirmed).  Invoking `get` again on the same caller context: the
component calls `cancel$.next()` before subscribing to the new operation,
so the prior operation is cancelled at the invocation time `s2` of the new
one.  Every event of the prior operation is emitted strictly before `s2`
and every event of the new operation is emitted at `s2` or later, so no
events of the two streams interleave and at most one operation is live at
any time. -/
theorem c8_reinvocation_no_interleaving (opts1 opts2 : RequiredRetryOptions)
    (out1 out2 : Nat → Outcome) (rt1 rt2 : Nat → Nat) (s1 s2 : Nat)
    (cancel2 : Option Nat) :
    ((runOperation opts1 out1 rt1 (some s2) s1).trace.all (fun x =>
      (runOperation opts2 out2 rt2 cancel2 s2).trace.all (fun y =>
        decide (x.1 < y.1)))) = true := by
  rw [List.all_eq_true]
  intro x hx
  rw [List.all_eq_true]
  intro y hy
  simp only [runOperation] at hx hy
  have h1 := runFrom_lt_cancel opts1 out1 rt1 s2 s1 _ _ _ x hx
  have h2 := runFrom_time_lower_bound opts2 out2 rt2 cancel2 s2 _ _ _ y hy
  exact decide_eq_true (by omega)

/-- One-step unfolding of the retry loop when every attempt yields the
not-ready outcome and no cancel signal is present: `scheduleRetry` either
terminates with the max-retries error or emits the updates and re-enters
the loop after the computed backoff delay. -/
theorem runFrom_notReady_step (opts : RequiredRetryOptions) (rt : Nat → Nat)
    (startTime a t n : Nat) :
    runFrom opts (fun _ => notReadyOutcome) rt none startTime a t (n + 1) =
      if opts.retries ≤ a then
        ⟨(if opts.noUpdates then [] else [(t, Event.loading)]) ++
            [(t + rt a, Event.errorEv
              (maxRetriesError .DATA_NOT_READY_YET startTime (t + rt a) opts a))],
          [t]⟩
      else
        ⟨((if opts.noUpdates then [] else [(t, Event.loading)]) ++
            (if opts.noUpdates then []
             else if opts.liveUpdates then
               liveUpdateEvents (calculateDelayBeforeRetry opts.interval a opts.strategy)
                 a .DATA_NOT_READY_YET opts none (t + rt a)
             else [(t + rt a, Event.errorEv (attemptUpdateError .DATA_NOT_READY_YET a opts))])) ++
            (runFrom opts (fun _ => notReadyOutcome) rt none startTime (a + 1)
              (t + rt a + calculateDelayBeforeRetry opts.interval a opts.strategy) n).trace,
          t :: (runFrom opts (fun _ => notReadyOutcome) rt none startTime (a + 1)
              (t + rt a + calculateDelayBeforeRetry opts.interval a opts.strategy) n).issues⟩ := by
  rfl

/-- A list on which the predicate is everywhere false filters to the empty
list. -/
theorem filter_false_of_forall {α : Type} {p : α → Bool} :
    ∀ {l : List α}, (∀ a ∈ l, p a = false) → l.filter p = [] := by
  intro l
  induction l with
  | nil => intro _; rfl
  | cons x xs ih =>
    intro h
    simp only [List.filter_cons, h x (List.mem_cons_self x xs)]
    exact ih (fun a ha => h a (List.mem_cons_of_mem x ha))

/-- The optional loading event contains no terminal max-retries error. -/
theorem loadEv_filter_terminal (b : Bool) (t : Nat) :
    ((if b then ([] : List (Nat × Event)) else [(t, Event.loading)]).filter
      (fun x => isTerminalErr x.2)) = [] := by
  cases b <;> simp [isTerminalErr]

/-- No countdown tick is a terminal max-retries error. -/
theorem liveUpdateEvents_filter_terminal (d a : Nat) (code : ErrorCodes)
    (opts : RequiredRetryOptions) (cancel : Option Nat) (t : Nat) :
    ((liveUpdateEvents d a code opts cancel t).filter
      (fun x => isTerminalErr x.2)) = [] := by
  apply filter_false_of_forall
  intro x hx
  simp only [liveUpdateEvents, List.mem_map, List.mem_filter] at hx
  obtain ⟨k, -, rfl⟩ := hx
  simp [countdownTick, isTerminalErr]

/-- The intermediate updates of one scheduled retry contain no terminal
max-retries error. -/
theorem updates_filter_terminal (opts : RequiredRetryOptions) (d a : Nat)
    (code : ErrorCodes) (cancel : Option Nat) (tR : Nat) :
    ((if opts.noUpdates then ([] : List (Nat × Event))
      else if opts.liveUpdates then liveUpdateEvents d a code opts cancel tR
      else [(tR, Event.errorEv (attemptUpdateError code a opts))]).filter
      (fun x => isTerminalErr x.2)) = [] := by
  by_cases h1 : opts.noUpdates
  · simp [h1]
  · by_cases h2 : opts.liveUpdates
    · simp [h1, h2, liveUpdateEvents_filter_terminal]
    · simp [h1, h2, attemptUpdateError, isTerminalErr]

/-- Invariant of the all-not-ready run without cancellation, parametrized
by the current attempt counter `a` and the remaining fuel: the segment
issues exactly `fuel` requests, its last event is the max-retries error
carrying the final counter, the configured budget and the elapsed time in
seconds, and that terminal error occurs exactly once in the segment. -/
theorem runFrom_allNotReady (opts : RequiredRetryOptions) (rt : Nat → Nat)
    (startTime : Nat) :
    ∀ fuel a t, a ≤ opts.retries → a + fuel = opts.retries + 1 →
      (runFrom opts (fun _ => notReadyOutcome) rt none startTime a t fuel).issues.length
          = fuel ∧
      (∃ te e,
        (runFrom opts (fun _ => notReadyOutcome) rt none startTime a t fuel).trace.getLast?
            = some (te, Event.errorEv e) ∧
        e.attempts = some opts.retries ∧ e.maxRetries = some opts.retries ∧
        e.totalDelay = some (((te - startTime : Nat) : ℚ) / 1000)) ∧
      ((runFrom opts (fun _ => notReadyOutcome) rt none startTime a t fuel).trace.filter
          (fun x => isTerminalErr x.2)).length = 1 := by
  intro fuel
  induction fuel with
  | zero => intro a t h1 h2; omega
  | succ n ih =>
    intro a t h1 h2
    rw [runFrom_notReady_step]
    by_cases hterm : opts.retries ≤ a
    · have ha : a = opts.retries := Nat.le_antisymm h1 hterm
      rw [if_pos hterm]
      refine ⟨by simp; omega, ⟨t + rt a,
        maxRetriesError .DATA_NOT_READY_YET startTime (t + rt a) opts a, ?_, ?_, ?_, ?_⟩, ?_⟩
      · exact List.getLast?_append_cons _ _ []
      · simp [maxRetriesError, ha]
      · simp [maxRetriesError]
      · simp [maxRetriesError]
      · rw [List.filter_append, loadEv_filter_terminal]
        simp [isTerminalErr, maxRetriesError]
    · rw [if_neg hterm]
      have hlt : a < opts.retries := Nat.lt_of_not_le hterm
      obtain ⟨hiss, ⟨te, e, hlast, he1, he2, he3⟩, hcount⟩ :=
        ih (a + 1) (t + rt a + calculateDelayBeforeRetry opts.interval a opts.strategy)
          (by omega) (by omega)
      have hne : (runFrom opts (fun _ => notReadyOutcome) rt none startTime (a + 1)
          (t + rt a + calculateDelayBeforeRetry opts.interval a opts.strategy) n).trace ≠ [] := by
        intro hnil
        rw [hnil] at hlast
        simp at hlast
      refine ⟨by simpa using hiss, ⟨te, e, ?_, he1, he2, he3⟩, ?_⟩
      · rw [List.getLast?_append_of_ne_nil _ hne]
        exact hlast
      · rw [List.filter_append, List.filter_append, loadEv_filter_terminal,
          updates_filter_terminal]
        simpa using hcount

/-- C2 (confirmed).  For every configuration with `retries = N` (and any
interval, strategy and update flags), if every attempt yields the not-ready
outcome, then exactly `N` retry attempts occur beyond the first request
(`N + 1` requests are issued in total), the last event of the stream is the
single terminal max-retries error event, it carries `attempts = N`,
`maxRetries = N` and `totalDelay` equal to the wall-clock time elapsed
since operation start divided by 1000 (seconds), and no event follows it:
the stream completes.  Uniqueness: exactly one terminal max-retries event
occurs in the whole trace. -/
theorem c2_retry_budget_exhaustion (N i U : Nat) (s : String) (rsf ruf lu nu : Bool)
    (rt : Nat → Nat) (startTime : Nat) :
    (runOperation ⟨N, i, U, s, rsf, ruf, lu, nu⟩ (fun _ => notReadyOutcome)
        rt none startTime).issues.length = N + 1 ∧
    (∃ te e,
      (runOperation ⟨N, i, U, s, rsf, ruf, lu, nu⟩ (fun _ => notReadyOutcome)
          rt none startTime).trace.getLast? = some (te, Event.errorEv e) ∧
      e.attempts = some N ∧ e.maxRetries = some N ∧
      e.totalDelay = some (((te - startTime : Nat) : ℚ) / 1000)) ∧
    ((runOperation ⟨N, i, U, s, rsf, ruf, lu, nu⟩ (fun _ => notReadyOutcome)
        rt none startTime).trace.filter (fun x => isTerminalErr x.2)).length = 1 := by
  exact runFrom_allNotReady ⟨N, i, U, s, rsf, ruf, lu, nu⟩ rt startTime (N + 1) 0 startTime
    (Nat.zero_le N) (by simp)

/-- A terminal event produced by `checkResponseObserver` is a data response
or an error response, never the loading notification. -/
theorem decideOutcome_not_loading (opts : RequiredRetryOptions) (o : Outcome)
    (e : Event) (h : decideOutcome opts o = .terminalEvent e) :
    isLoading e = false := by
  cases o with
  | success st b =>
    simp only [decideOutcome] at h
    split at h
    · cases h; rfl
    · split at h
      · cases h
      · cases h; rfl
  | failure st b =>
    simp only [decideOutcome] at h
    split at h
    · cases h
    · split at h
      · cases h
      · cases h; rfl

/-- With `noUpdates` set, an uncancelled run emits exactly one event for
the whole operation, and that event is not the loading notification (it is
the terminal data or error event), for every sequence of transport
outcomes. -/
theorem runFrom_noUpdates_single (opts : RequiredRetryOptions)
    (outcome : Nat → Outcome) (rt : Nat → Nat) (startTime : Nat)
    (hnu : opts.noUpdates = true) :
    ∀ fuel a t, a ≤ opts.retries → a + fuel = opts.retries + 1 →
      ∃ p : Nat × Event,
        (runFrom opts outcome rt none startTime a t fuel).trace = [p] ∧
        isLoading p.2 = false := by
  intro fuel
  induction fuel with
  | zero => intro a t h1 h2; omega
  | succ n ih =>
    intro a t h1 h2
    simp only [runFrom, hnu, openAt, if_true]
    cases hd : decideOutcome opts (outcome a) with
    | terminalEvent e =>
      exact ⟨(t + rt a, e), by simp, decideOutcome_not_loading opts (outcome a) e hd⟩
    | retry code =>
      dsimp only
      by_cases hterm : opts.retries ≤ a
      · rw [if_pos hterm]
        exact ⟨(t + rt a, Event.errorEv
          (maxRetriesError code startTime (t + rt a) opts a)), by simp, rfl⟩
      · rw [if_neg hterm]
        obtain ⟨p, hp, hpl⟩ := ih (a + 1)
          (t + rt a + calculateDelayBeforeRetry opts.interval a opts.strategy)
          (by omega) (by omega)
        exact ⟨p, by simp [hp], hpl⟩

/-- With `noUpdates` unset and `liveUpdates` unset, an uncancelled run
emits exactly two events per issued request: the loading notification of
`fetchData` and, for the outcome of that request, either the single
attempts update of the scheduled retry or the terminal event, for every
sequence of transport outcomes. -/
theorem runFrom_singleUpdates_count (opts : RequiredRetryOptions)
    (outcome : Nat → Outcome) (rt : Nat → Nat) (startTime : Nat)
    (hnu : opts.noUpdates = false) (hlu : opts.liveUpdates = false) :
    ∀ fuel a t, a ≤ opts.retries → a + fuel = opts.retries + 1 →
      (runFrom opts outcome rt none startTime a t fuel).trace.length =
        2 * (runFrom opts outcome rt none startTime a t fuel).issues.length := by
  intro fuel
  induction fuel with
  | zero => intro a t h1 h2; omega
  | succ n ih =>
    intro a t h1 h2
    simp only [runFrom, hnu, hlu, openAt, if_true, if_false, Bool.false_eq_true]
    cases hd : decideOutcome opts (outcome a) with
    | terminalEvent e => simp
    | retry code =>
      dsimp only
      by_cases hterm : opts.retries ≤ a
      · rw [if_pos hterm]
        simp
      · rw [if_neg hterm]
        have := ih (a + 1)
          (t + rt a + calculateDelayBeforeRetry opts.interval a opts.strategy)
          (by omega) (by omega)
        simp only [List.length_append, List.length_cons, List.length_nil]
        omega

/-- C4 (amended).  Event-count contract of an uncancelled operation: with
`noUpdates = true` exactly one event is emitted for the whole operation,
namely the terminal one; with `liveUpdates = false` and `noUpdates = false`
the stream contains exactly two events per attempt — the loading event of
the attempt plus, per scheduled retry, one intermediate attempts update,
plus the terminal event — for every sequence of transport outcomes. -/
theorem c4_event_counts (N i U : Nat) (s : String) (rsf ruf lu : Bool)
    (outcome : Nat → Outcome) (rt : Nat → Nat) (startTime : Nat) :
    (∃ p : Nat × Event,
      (runOperation ⟨N, i, U, s, rsf, ruf, lu, true⟩ outcome rt none startTime).trace = [p] ∧
      isLoading p.2 = false) ∧
    ((runOperation ⟨N, i, U, s, rsf, ruf, false, false⟩ outcome rt none startTime).trace.length =
      2 * (runOperation ⟨N, i, U, s, rsf, ruf, false, false⟩ outcome rt
        none startTime).issues.length) := by
  constructor
  · exact runFrom_noUpdates_single ⟨N, i, U, s, rsf, ruf, lu, true⟩ outcome rt startTime rfl
      (N + 1) 0 startTime (Nat.zero_le N) (by simp)
  · exact runFrom_singleUpdates_count ⟨N, i, U, s, rsf, ruf, false, false⟩ outcome rt startTime
      rfl rfl (N + 1) 0 startTime (Nat.zero_le N) (by simp)

/-- C4 (counterexample).  With `retries = 1`, `interval = 0`,
`liveUpdates = false`, `noUpdates = false` and every attempt not ready, the
operation issues two requests and emits four events (loading, attempts
update, loading, terminal max-retries error).  The claim predicts one event
per attempt plus the terminal one, which would be three events, and is
therefore false: the loading notification of each attempt and the per-retry
attempts update are distinct emitted events. -/
theorem c4_counterexample :
    (runOperation ⟨1, 0, 1000, "linear", false, false, false, false⟩
      (fun _ => notReadyOutcome) (fun _ => 0) none 0).trace.length ≠
    (runOperation ⟨1, 0, 1000, "linear", false, false, false, false⟩
      (fun _ => notReadyOutcome) (fun _ => 0) none 0).issues.length + 1 ∧
    (runOperation ⟨1, 0, 1000, "linear", false, false, false, false⟩
      (fun _ => notReadyOutcome) (fun _ => 0) none 0).trace.length = 4 ∧
    (runOperation ⟨1, 0, 1000, "linear", false, false, false, false⟩
      (fun _ => notReadyOutcome) (fun _ => 0) none 0).issues.length = 2 := by
  decide

/-- Issue time of the request with ordinal `j` (0-based) in a run segment
whose first request runs at time `t` with attempt counter `a`, when every
outcome is retryable: each subsequent request runs one round trip plus one
backoff delay later, the delay being computed from the pre-increment
attempt index. -/
def issueTimeFrom (opts : RequiredRetryOptions) (rt : Nat → Nat) (t a : Nat) : Nat → Nat
  | 0 => t
  | j + 1 => issueTimeFrom opts rt t a j + rt (a + j) +
      calculateDelayBeforeRetry opts.interval (a + j) opts.strategy

/-- Reindexing: the `j + 1`-st issue time from `(t, a)` is the `j`-th issue
time from the successor attempt. -/
theorem issueTimeFrom_shift (opts : RequiredRetryOptions) (rt : Nat → Nat)
    (t a : Nat) : ∀ j, issueTimeFrom opts rt t a (j + 1) =
      issueTimeFrom opts rt
        (t + rt a + calculateDelayBeforeRetry opts.interval a opts.strategy) (a + 1) j := by
  intro j
  induction j with
  | zero => simp [issueTimeFrom]
  | succ m ihm =>
    have harg : a + (m + 1) = (a + 1) + m := by omega
    calc issueTimeFrom opts rt t a (m + 1 + 1)
        = issueTimeFrom opts rt t a (m + 1) + rt (a + (m + 1)) +
            calculateDelayBeforeRetry opts.interval (a + (m + 1)) opts.strategy := rfl
      _ = issueTimeFrom opts rt
            (t + rt a + calculateDelayBeforeRetry opts.interval a opts.strategy) (a + 1) m +
            rt ((a + 1) + m) +
            calculateDelayBeforeRetry opts.interval ((a + 1) + m) opts.strategy := by
          rw [ihm, harg]
      _ = issueTimeFrom opts rt
            (t + rt a + calculateDelayBeforeRetry opts.interval a opts.strategy) (a + 1)
            (m + 1) := rfl

/-- Closed form of the issued-request times of an uncancelled all-not-ready
run segment. -/
theorem runFrom_notReady_issues (opts : RequiredRetryOptions) (rt : Nat → Nat)
    (startTime : Nat) :
    ∀ fuel a t, a + fuel = opts.retries + 1 →
      (runFrom opts (fun _ => notReadyOutcome) rt none startTime a t fuel).issues =
        (List.range fuel).map (issueTimeFrom opts rt t a) := by
  intro fuel
  induction fuel with
  | zero => intro a t h; rfl
  | succ n ih =>
    intro a t h
    rw [runFrom_notReady_step]
    by_cases hterm : opts.retries ≤ a
    · rw [if_pos hterm]
      have hn : n = 0 := by omega
      subst hn
      rfl
    · rw [if_neg hterm]
      have hrest := ih (a + 1)
        (t + rt a + calculateDelayBeforeRetry opts.interval a opts.strategy) (by omega)
      have hfun : issueTimeFrom opts rt t a ∘ Nat.succ =
          issueTimeFrom opts rt
            (t + rt a + calculateDelayBeforeRetry opts.interval a opts.strategy) (a + 1) :=
        funext (fun j => issueTimeFrom_shift opts rt t a j)
      show t :: _ = _
      rw [hrest, List.range_succ_eq_map, List.map_cons, List.map_map, hfun]
      rfl

/-- Issued-request times of a full uncancelled all-not-ready operation. -/
theorem runOperation_notReady_issues (opts : RequiredRetryOptions) (rt : Nat → Nat)
    (startTime : Nat) :
    (runOperation opts (fun _ => notReadyOutcome) rt none startTime).issues =
      (List.range (opts.retries + 1)).map (issueTimeFrom opts rt startTime 0) :=
  runFrom_notReady_issues opts rt startTime (opts.retries + 1) 0 startTime (by omega)

/-- Issue-time sequence claimed by the specification for the exponential
strategy: the wait inserted before the retry with 0-based index `k` is
`interval * 2 ^ k`. -/
def expIssueTime (i : Nat) (rt : Nat → Nat) (start : Nat) : Nat → Nat
  | 0 => start
  | k + 1 => expIssueTime i rt start k + rt k + i * 2 ^ k

/-- Issue-time sequence claimed by the specification for the linear
strategy: every inserted wait is the base interval. -/
def linIssueTime (i : Nat) (rt : Nat → Nat) (start : Nat) : Nat → Nat
  | 0 => start
  | k + 1 => linIssueTime i rt start k + rt k + i

/-- String comparison facts used to evaluate the strategy dispatch. -/
theorem strategy_beq_facts :
    ("exponential" == "linear") = false ∧ ("linear" == "linear") = true := by
  decide

/-- Under the exponential strategy the issue times from the code equal the
claimed exponential sequence. -/
theorem issueTimeFrom_exponential (N i U : Nat) (rsf ruf lu nu : Bool)
    (rt : Nat → Nat) (t : Nat) :
    ∀ k, issueTimeFrom ⟨N, i, U, "exponential", rsf, ruf, lu, nu⟩ rt t 0 k
      = expIssueTime i rt t k := by
  intro k
  induction k with
  | zero => rfl
  | succ j ihj =>
    show issueTimeFrom ⟨N, i, U, "exponential", rsf, ruf, lu, nu⟩ rt t 0 j + rt (0 + j) +
        calculateDelayBeforeRetry i (0 + j) "exponential" = _
    rw [ihj]
    simp [expIssueTime, calculateDelayBeforeRetry, strategy_beq_facts.1]

/-- Under the linear strategy the issue times from the code equal the
claimed constant-interval sequence. -/
theorem issueTimeFrom_linear (N i U : Nat) (rsf ruf lu nu : Bool)
    (rt : Nat → Nat) (t : Nat) :
    ∀ k, issueTimeFrom ⟨N, i, U, "linear", rsf, ruf, lu, nu⟩ rt t 0 k
      = linIssueTime i rt t k := by
  intro k
  induction k with
  | zero => rfl
  | succ j ihj =>
    show issueTimeFrom ⟨N, i, U, "linear", rsf, ruf, lu, nu⟩ rt t 0 j + rt (0 + j) +
        calculateDelayBeforeRetry i (0 + j) "linear" = _
    rw [ihj]
    simp [linIssueTime, calculateDelayBeforeRetry]

/-- C5 (confirmed).  Backoff computation: for every interval `i`, attempt
index `a` and strategy, `calculateDelayBeforeRetry` returns `i` under the
linear strategy and `i * 2 ^ a` under the exponential strategy; and since
the attempt index is 0-based and incremented only after scheduling, in an
all-not-ready run the request of the k-th retry (1-based) is issued exactly
one round trip plus `i * 2 ^ (k - 1)` after the previous issue under the
exponential strategy, and one round trip plus the constant `i` under the
linear strategy: the issued-request times follow the claimed sequences
exactly. -/
theorem c5_backoff_delays :
    (∀ i a : Nat, calculateDelayBeforeRetry i a "linear" = i) ∧
    (∀ i a : Nat, calculateDelayBeforeRetry i a "exponential" = i * 2 ^ a) ∧
    (∀ (N i U : Nat) (rsf ruf lu nu : Bool) (rt : Nat → Nat) (start : Nat),
      (runOperation ⟨N, i, U, "exponential", rsf, ruf, lu, nu⟩ (fun _ => notReadyOutcome)
          rt none start).issues = (List.range (N + 1)).map (expIssueTime i rt start)) ∧
    (∀ (N i U : Nat) (rsf ruf lu nu : Bool) (rt : Nat → Nat) (start : Nat),
      (runOperation ⟨N, i, U, "linear", rsf, ruf, lu, nu⟩ (fun _ => notReadyOutcome)
          rt none start).issues = (List.range (N + 1)).map (linIssueTime i rt start)) ∧
    (∀ (i : Nat) (rt : Nat → Nat) (start k : Nat),
      expIssueTime i rt start (k + 1) = expIssueTime i rt start k + rt k + i * 2 ^ k) ∧
    (∀ (i : Nat) (rt : Nat → Nat) (start k : Nat),
      linIssueTime i rt start (k + 1) = linIssueTime i rt start k + rt k + i) := by
  refine ⟨?_, ?_, ?_, ?_, fun i rt start k => rfl, fun i rt start k => rfl⟩
  · intro i a
    simp [calculateDelayBeforeRetry]
  · intro i a
    simp [calculateDelayBeforeRetry, strategy_beq_facts.1]
  · intro N i U rsf ruf lu nu rt start
    rw [runOperation_notReady_issues]
    have hfun : issueTimeFrom ⟨N, i, U, "exponential", rsf, ruf, lu, nu⟩ rt start 0 =
        expIssueTime i rt start :=
      funext (issueTimeFrom_exponential N i U rsf ruf lu nu rt start)
    rw [hfun]
  · intro N i U rsf ruf lu nu rt start
    rw [runOperation_notReady_issues]
    have hfun : issueTimeFrom ⟨N, i, U, "linear", rsf, ruf, lu, nu⟩ rt start 0 =
        linIssueTime i rt start :=
      funext (issueTimeFrom_linear N i U rsf ruf lu nu rt start)
    rw [hfun]

/-- The remaining-delay payload of an event (field `delay` of the error
record carried by a countdown tick). -/
def eventDelay : Event → Option Nat
  | .errorEv e => e.delay
  | _ => none

/-- The attempts payload of an event. -/
def eventAttempts : Event → Option Nat
  | .errorEv e => e.attempts
  | _ => none

/-- C7 (confirmed).  Live countdown contract for a wait of duration `D`
with a positive tick period `updateInterval`, as produced by
`sendLiveUpdates`: the ticks are exactly the instants `t + k * period` with
`k * period < D` that precede the cancel instant; the sequence starts
immediately at the wait start (tick at relative time zero, carrying
`remaining = D`); each tick carries `remaining = max(D - elapsed, 0)` (the
message rounds it up to whole seconds, see `countdownTick`); the remaining
values are monotonically non-increasing along the wait while the times are
strictly increasing; and no tick occurs at or after the wait deadline
`t + D` nor at or after the cancel instant, whichever comes first. -/
theorem c7_live_countdown (D a : Nat) (code : ErrorCodes)
    (opts : RequiredRetryOptions) (cancel : Option Nat) (t : Nat)
    (hU : 0 < opts.updateInterval) :
    (∀ x : Nat × Event, x ∈ liveUpdateEvents D a code opts cancel t ↔
      ∃ k, k * opts.updateInterval < D ∧
        openAt cancel (t + k * opts.updateInterval) = true ∧
        x = countdownTick D a code opts t k) ∧
    (0 < D → openAt cancel t = true →
      (liveUpdateEvents D a code opts cancel t).head?
        = some (countdownTick D a code opts t 0)) ∧
    ((countdownTick D a code opts t 0).1 = t ∧
      eventDelay (countdownTick D a code opts t 0).2 = some D) ∧
    (∀ x ∈ liveUpdateEvents D a code opts cancel t,
      x.1 < t + D ∧ openAt cancel x.1 = true ∧
      eventDelay x.2 = some (D - (x.1 - t))) ∧
    List.Pairwise
      (fun x y : Nat × Event => x.1 < y.1 ∧
        (eventDelay y.2).getD 0 ≤ (eventDelay x.2).getD 0)
      (liveUpdateEvents D a code opts cancel t) := by
  have hmem : ∀ x : Nat × Event, x ∈ liveUpdateEvents D a code opts cancel t ↔
      ∃ k, k * opts.updateInterval < D ∧
        openAt cancel (t + k * opts.updateInterval) = true ∧
        x = countdownTick D a code opts t k := by
    intro x
    constructor
    · intro hx
      simp only [liveUpdateEvents, List.mem_map, List.mem_filter, List.mem_range] at hx
      obtain ⟨k, ⟨-, hcond⟩, rfl⟩ := hx
      simp only [Bool.and_eq_true, decide_eq_true_eq] at hcond
      exact ⟨k, hcond.1, hcond.2, rfl⟩
    · rintro ⟨k, h1, h2, rfl⟩
      simp only [liveUpdateEvents, List.mem_map, List.mem_filter, List.mem_range]
      refine ⟨k, ⟨?_, ?_⟩, rfl⟩
      · calc k = k * 1 := (Nat.mul_one k).symm
          _ ≤ k * opts.updateInterval := Nat.mul_le_mul_left k hU
          _ < D := h1
      · simp [h1, h2]
  refine ⟨hmem, ?_, ?_, ?_, ?_⟩
  · intro hD hopen
    obtain ⟨m, rfl⟩ : ∃ m, D = m + 1 := ⟨D - 1, by omega⟩
    simp only [liveUpdateEvents, List.range_succ_eq_map, List.filter_cons]
    simp [hopen]
  · constructor
    · simp [countdownTick]
    · simp [countdownTick, eventDelay]
  · intro x hx
    obtain ⟨k, h1, h2, rfl⟩ := (hmem x).mp hx
    refine ⟨by simp [countdownTick]; omega, ?_, ?_⟩
    · simpa [countdownTick] using h2
    · simp [countdownTick, eventDelay]
  · have hpair : List.Pairwise (· < ·)
        ((List.range D).filter (fun k => k * opts.updateInterval < D &&
          openAt cancel (t + k * opts.updateInterval))) :=
      (List.pairwise_lt_range D).sublist (List.filter_sublist _)
    refine hpair.map (countdownTick D a code opts t) ?_
    intro k k' hkk'
    have h1 : (k + 1) * opts.updateInterval ≤ k' * opts.updateInterval :=
      Nat.mul_le_mul_right opts.updateInterval hkk'
    have h2 : (k + 1) * opts.updateInterval = k * opts.updateInterval + opts.updateInterval :=
      Nat.succ_mul k opts.updateInterval
    constructor
    · simp only [countdownTick]
      omega
    · simp only [countdownTick, eventDelay, Option.getD_some]
      omega

/-- C7 (witness).  A concrete wait: duration 3000 ms, tick period 1000 ms,
no cancellation, wait starting at time 100: the first emitted tick is the
tick at time 100 carrying the full remaining duration. -/
theorem c7_live_countdown_witness :
    (liveUpdateEvents 3000 0 ErrorCodes.DATA_NOT_READY_YET
        ⟨2, 3000, 1000, "linear", false, false, true, false⟩ none 100).head?
      = some (countdownTick 3000 0 ErrorCodes.DATA_NOT_READY_YET
        ⟨2, 3000, 1000, "linear", false, false, true, false⟩ 100 0) :=
  ((c7_live_countdown 3000 0 ErrorCodes.DATA_NOT_READY_YET
    ⟨2, 3000, 1000, "linear", false, false, true, false⟩ none 100
    (by decide)).2.1) (by decide) (by decide)

/-- The intermediate (non-terminal) error updates of a trace: error-shaped
events that do not carry the `totalDelay` field, in emission order.  With
live updates off these are exactly the attempts updates of
`sendAttemptsUpdate`. -/
def intermediateUpdates (tr : List (Nat × Event)) : List ErrorData :=
  tr.filterMap (fun x =>
    match x.2 with
    | .errorEv e => if e.totalDelay.isSome then none else some e
    | _ => none)

/-- In an uncancelled all-not-ready run with live updates off and updates
on, the intermediate updates are exactly one attempts update per scheduled
retry, carrying the pre-increment counters `a`, `a + 1`, ... in order. -/
theorem runFrom_notReady_updates (opts : RequiredRetryOptions) (rt : Nat → Nat)
    (startTime : Nat) (hnu : opts.noUpdates = false) (hlu : opts.liveUpdates = false) :
    ∀ fuel a t, a + fuel = opts.retries + 1 →
      intermediateUpdates
          (runFrom opts (fun _ => notReadyOutcome) rt none startTime a t fuel).trace =
        (List.range (opts.retries - a)).map
          (fun j => attemptUpdateError .DATA_NOT_READY_YET (a + j) opts) := by
  intro fuel
  induction fuel with
  | zero =>
    intro a t h
    have hz : opts.retries - a = 0 := by omega
    rw [hz]
    rfl
  | succ n ih =>
    intro a t h
    rw [runFrom_notReady_step]
    by_cases hterm : opts.retries ≤ a
    · rw [if_pos hterm]
      have hz : opts.retries - a = 0 := by omega
      rw [hz, hnu]
      simp [intermediateUpdates, maxRetriesError]
    · rw [if_neg hterm]
      rw [hnu, hlu]
      have hrest := ih (a + 1)
        (t + rt a + calculateDelayBeforeRetry opts.interval a opts.strategy) (by omega)
      obtain ⟨m, hm⟩ : ∃ m, opts.retries - a = m + 1 := ⟨opts.retries - (a + 1), by omega⟩
      have hm' : opts.retries - (a + 1) = m := by omega
      rw [hm' ] at hrest
      simp only [intermediateUpdates, List.filterMap_append] at hrest ⊢
      rw [hrest, hm, List.range_succ_eq_map, List.map_cons, List.map_map]
      have hfun : ((fun j => attemptUpdateError .DATA_NOT_READY_YET (a + j) opts) ∘ Nat.succ)
          = fun j => attemptUpdateError .DATA_NOT_READY_YET ((a + 1) + j) opts := by
        funext j
        have : a + (j + 1) = (a + 1) + j := by omega
        simp [Function.comp, Nat.succ_eq_add_one, this]
      rw [hfun]
      simp [attemptUpdateError]

/-- C10 (confirmed).  Attempt numbering in intermediate updates is
pre-increment.  In an uncancelled all-not-ready run with live updates off,
the j-th intermediate update (0-based, i.e. the one emitted before the
(j+1)-st retry) is the attempts update with `attempts = j`; in particular
the update before the first retry carries `attempts = 0` and reads
`Attempt 0 of M`.  Every countdown tick of a wait scheduled with counter
`a` carries `attempts = a`, the pre-increment value, for the whole wait.
The terminal max-retries event instead carries the post-increment count,
equal to the configured budget. -/
theorem c10_preincrement_attempt_numbering (N i U : Nat) (s : String)
    (rsf ruf : Bool) (rt : Nat → Nat) (start : Nat) :
    (intermediateUpdates (runOperation ⟨N, i, U, s, rsf, ruf, false, false⟩
        (fun _ => notReadyOutcome) rt none start).trace =
      (List.range N).map (fun j => attemptUpdateError .DATA_NOT_READY_YET j
        ⟨N, i, U, s, rsf, ruf, false, false⟩)) ∧
    (∀ j : Nat,
      (attemptUpdateError .DATA_NOT_READY_YET j
        ⟨N, i, U, s, rsf, ruf, false, false⟩).attempts = some j ∧
      (attemptUpdateError .DATA_NOT_READY_YET j
          ⟨N, i, U, s, rsf, ruf, false, false⟩).message =
        some ("Attempt " ++ toString j ++ " of " ++ toString N)) ∧
    (∀ (d a : Nat) (code : ErrorCodes) (opts : RequiredRetryOptions)
        (cancel : Option Nat) (t : Nat),
      (liveUpdateEvents d a code opts cancel t).all
        (fun x => eventAttempts x.2 == some a) = true) ∧
    (∃ te e, (runOperation ⟨N, i, U, s, rsf, ruf, false, false⟩
        (fun _ => notReadyOutcome) rt none start).trace.getLast?
          = some (te, Event.errorEv e) ∧ e.attempts = some N) := by
  refine ⟨?_, fun j => ⟨rfl, rfl⟩, ?_, ?_⟩
  · have h := runFrom_notReady_updates ⟨N, i, U, s, rsf, ruf, false, false⟩ rt start rfl rfl
      (N + 1) 0 start (by simp)
    simpa using h
  · intro d a code opts cancel t
    rw [List.all_eq_true]
    intro x hx
    simp only [liveUpdateEvents, List.mem_map, List.mem_filter] at hx
    obtain ⟨k, -, rfl⟩ := hx
    simp [countdownTick, eventAttempts]
  · obtain ⟨-, ⟨te, e, hlast, he1, -, -⟩, -⟩ :=
      runFrom_allNotReady ⟨N, i, U, s, rsf, ruf, false, false⟩ rt start (N + 1) 0 start
        (Nat.zero_le N) (by simp)
    exact ⟨te, e, hlast, he1⟩
